import Mathlib

set_option maxRecDepth 8000

/-!
Shallow embedding of the concurrent text-to-speech orchestration core of the
Piper-TTS-Electron repository (server revision embedded from the source).

Strings are modelled as `List Char`; each JavaScript regular-expression
replacement of the source is hand-compiled into an executable scanner with the
same matching semantics (leftmost match, greedy/lazy quantifiers, JS `\w` =
ASCII word characters, JS `\b` word boundaries, lookahead).  Scanners that skip
a matched span use an explicit fuel argument (always instantiated with the
input length, which bounds the number of scan steps since every match consumes
at least one character).
-/

/-! ## Character classes (JS regex semantics) -/

/-- JS `\s` restricted to the whitespace characters the program manipulates
(space, tab, newline, carriage return, vertical tab, form feed). -/
def isJsWs (c : Char) : Bool :=
  c == ' ' || c == '\t' || c == '\n' || c == '\r' ||
  c == Char.ofNat 11 || c == Char.ofNat 12

/-- JS `\w` = `[A-Za-z0-9_]` (ASCII only; accented letters are not word
characters in JS regexes without the `u`-mode property escapes). -/
def isWordChar (c : Char) : Bool :=
  ('A' ≤ c && c ≤ 'Z') || ('a' ≤ c && c ≤ 'z') || ('0' ≤ c && c ≤ '9') || c == '_'

/-- The capital-letter class `[A-ZÁÉÍÓÚÑÜ]` used throughout the server. -/
def isUpperTTS (c : Char) : Bool :=
  ('A' ≤ c && c ≤ 'Z') || c == 'Á' || c == 'É' || c == 'Í' || c == 'Ó' ||
  c == 'Ú' || c == 'Ñ' || c == 'Ü'

/-- Case folding for the JS `i` flag, restricted to the ASCII letters and the
accented letters that occur in the program's patterns and data. -/
def foldLower (c : Char) : Char :=
  if 'A' ≤ c && c ≤ 'Z' then Char.ofNat (c.toNat + 32)
  else if c == 'Á' then 'á' else if c == 'É' then 'é'
  else if c == 'Í' then 'í' else if c == 'Ó' then 'ó'
  else if c == 'Ú' then 'ú' else if c == 'Ñ' then 'ñ'
  else if c == 'Ü' then 'ü' else c

/-- Split a maximal run of JS whitespace off the front of a string. -/
def wsSplit : List Char → List Char × List Char
  | [] => ([], [])
  | c :: cs =>
    if isJsWs c then
      let p := wsSplit cs
      (c :: p.1, p.2)
    else ([], c :: cs)

/-- JS `String.prototype.trim` on the modelled whitespace set. -/
def trimWs (l : List Char) : List Char :=
  ((wsSplit ((wsSplit l).2.reverse)).2).reverse

/-! ## Generic global-replacement scanner

`scanRep f s` walks the string left to right; wherever `f` recognises a match
of the compiled pattern at the current position it emits the replacement and
resumes after the match, mirroring a JS `String.prototype.replace` with the
`g` flag.  Every pattern below consumes at least one character, so fuel equal
to the input length suffices. -/

def scanRepAux (f : List Char → Option (List Char × List Char)) :
    Nat → List Char → List Char
  | 0, s => s
  | _ + 1, [] => []
  | fuel + 1, c :: cs =>
    match f (c :: cs) with
    | some (rep, rest) => rep ++ scanRepAux f fuel rest
    | none => c :: scanRepAux f fuel cs

def scanRep (f : List Char → Option (List Char × List Char)) (s : List Char) :
    List Char :=
  scanRepAux f s.length s

/-- Exact (case-sensitive) literal prefix match. -/
def matchExact : List Char → List Char → Option (List Char)
  | [], rest => some rest
  | _, [] => none
  | p :: ps, c :: cs => if c == p then matchExact ps cs else none

/-- Case-insensitive literal prefix match (JS `i` flag); returns the matched
original characters and the remainder. -/
def matchFold : List Char → List Char → Option (List Char × List Char)
  | [], rest => some ([], rest)
  | _, [] => none
  | p :: ps, c :: cs =>
    if foldLower c == foldLower p then
      match matchFold ps cs with
      | some (m, rest) => some (c :: m, rest)
      | none => none
    else none

/-- Global literal replacement, `text.replace(new RegExp(lit, 'g'), rep)` for a
literal pattern without metacharacters. -/
def replaceAllLit (pat rep : List Char) (s : List Char) : List Char :=
  scanRep (fun l =>
    if pat.isEmpty then none
    else match matchExact pat l with
      | some rest => some (rep, rest)
      | none => none) s

/-! ## normalizeTextForTTS

Each numbered rule embeds one `replace` call of `normalizeTextForTTS`, in
source order. -/

/-- Rule `\n\s*\n → '. '`: a newline, greedy whitespace, and a final newline
(the greedy `\s*` backtracks to the last newline of the run). -/
def fDoubleNewline : List Char → Option (List Char × List Char)
  | '\n' :: rest =>
    let p := wsSplit rest
    let run := p.1
    match (run.enum.filter (fun e => e.2 == '\n')).getLast? with
    | some (k, _) => some (('.' :: ' ' :: []), run.drop (k + 1) ++ p.2)
    | none => none
  | _ => none

/-- Rule `[“”‘’] → '"'` (normalize quotes). -/
def normQuote (c : Char) : Char :=
  if c == '“' || c == '”' || c == '‘' || c == '’' then '"' else c

/-- Rule `[–—] → '-'` (normalize dashes). -/
def normDash (c : Char) : Char :=
  if c == '–' || c == '—' then '-' else c

/-- Two-character literal collapse such as `¿¡ → ¿` or `?! → ?`. -/
def fPair (a b keep : Char) : List Char → Option (List Char × List Char)
  | c :: d :: rest => if c == a && d == b then some ([keep], rest) else none
  | _ => none

/-- Everything before the first occurrence of `stop`, or `none`. -/
def splitAtFirst (stop : Char) : List Char → Option (List Char × List Char)
  | [] => none
  | c :: cs =>
    if c == stop then some ([], cs)
    else match splitAtFirst stop cs with
      | some (pre, post) => some (c :: pre, post)
      | none => none

/-- Rules `¿([^?]*?)\?` / `¡([^!]*?)!` with the callback that trims the
captured content. -/
def fBracketTrim (openC closeC : Char) : List Char → Option (List Char × List Char)
  | c :: cs =>
    if c == openC then
      match splitAtFirst closeC cs with
      | some (content, after) => some (openC :: trimWs content ++ [closeC], after)
      | none => none
    else none
  | [] => none

/-- Backtracking search for the lazy group of
`([^stop]*?)(?:\s*[.])(?!look)`: the shortest `stop`-free prefix followed by a
whitespace run, a period, and a character other than `look` (or end of
input). Returns the captured content and the remainder after the period. -/
def sdcHit (look : Char) (acc l : List Char) : Option (List Char × List Char) :=
  match (wsSplit l).2 with
  | '.' :: t' =>
    match t' with
    | c :: _ => if c == look then none else some (acc.reverse, t')
    | [] => some (acc.reverse, ([] : List Char))
  | _ => none

def sdcAux (stop look : Char) :
    List Char → List Char → Option (List Char × List Char)
  | _, [] => none
  | acc, c :: cs =>
    match sdcHit look acc (c :: cs) with
    | some r => some r
    | none => if c == stop then none else sdcAux stop look (c :: acc) cs

/-- Rules `¿\s*([^?]*?)(?:\s*[.])(?!\?) → ¿$1?` and the `¡`/`!` analogue
(repair incomplete question/exclamation patterns). -/
def fIncompleteOpen (openC closeC : Char) :
    List Char → Option (List Char × List Char)
  | c :: cs =>
    if c == openC then
      let rest1 := (wsSplit cs).2
      match sdcAux closeC closeC [] rest1 with
      | some (content, after) => some (openC :: content ++ [closeC], after)
      | none => none
    else none
  | [] => none

/-- Rule `:\s*$ → '.'` (trailing colon becomes a period). -/
def fixTrailingColon (l : List Char) : List Char :=
  let r := (wsSplit l.reverse).2
  match r with
  | ':' :: rest => ('.' :: rest).reverse
  | _ => l

/-- Rule `:\s*(?=[A-ZÁÉÍÓÚÑÜ]) → '. '`. -/
def fColonCap : List Char → Option (List Char × List Char)
  | ':' :: cs =>
    let r := (wsSplit cs).2
    match r with
    | c :: _ => if isUpperTTS c then some (['.', ' '], r) else none
    | [] => none
  | _ => none

/-- Rule `\s+([.!?¿¡,;:]) → '$1'` (no space before punctuation). -/
def fWsBeforePunct : List Char → Option (List Char × List Char)
  | c :: cs =>
    if isJsWs c then
      let p := wsSplit (c :: cs)
      match p.2 with
      | q :: rest =>
        if q == '.' || q == '!' || q == '?' || q == '¿' || q == '¡' ||
           q == ',' || q == ';' || q == ':' then some ([q], rest)
        else none
      | [] => none
    else none
  | [] => none

def isTerm3 (c : Char) : Bool := c == '.' || c == '!' || c == '?'

/-- Rule `([.!?])\s*([¿¡]) → '$1 $2'`. -/
def fTermOpen : List Char → Option (List Char × List Char)
  | c :: cs =>
    if isTerm3 c then
      let r := (wsSplit cs).2
      match r with
      | q :: rest =>
        if q == '¿' || q == '¡' then some ([c, ' ', q], rest) else none
      | [] => none
    else none
  | [] => none

/-- Rule `([.!?])\s*(?=[A-ZÁÉÍÓÚÑÜ]) → '$1 '` (lookahead is not consumed). -/
def fTermCap : List Char → Option (List Char × List Char)
  | c :: cs =>
    if isTerm3 c then
      let r := (wsSplit cs).2
      match r with
      | q :: _ => if isUpperTTS q then some ([c, ' '], r) else none
      | [] => none
    else none
  | [] => none

/-- Rule `([,:;])\s*(?=[A-ZÁÉÍÓÚÑÜ]) → '$1 '`. -/
def fClauseCap : List Char → Option (List Char × List Char)
  | c :: cs =>
    if c == ',' || c == ':' || c == ';' then
      let r := (wsSplit cs).2
      match r with
      | q :: _ => if isUpperTTS q then some ([c, ' '], r) else none
      | [] => none
    else none
  | [] => none

/-- Maximal run of a character satisfying `p`. -/
def runSplit (p : Char → Bool) : List Char → List Char × List Char
  | [] => ([], [])
  | c :: cs =>
    if p c then
      let r := runSplit p cs
      (c :: r.1, r.2)
    else ([], c :: cs)

/-- Rule `\.{4,} → '...'`. -/
def fManyDots : List Char → Option (List Char × List Char)
  | '.' :: cs =>
    let p := runSplit (fun c => c == '.') ('.' :: cs)
    if p.1.length ≥ 4 then some (['.', '.', '.'], p.2) else none
  | _ => none

/-- Rule `\.{2}(?!\.) → '.'` (exactly two periods not followed by a third). -/
def fTwoDots : List Char → Option (List Char × List Char)
  | '.' :: '.' :: rest =>
    match rest with
    | '.' :: _ => none
    | _ => some (['.'], rest)
  | _ => none

/-- Rule `([!?]){2,} → '$1'`; the capture holds the last repetition. -/
def fBangRun : List Char → Option (List Char × List Char)
  | c :: cs =>
    if c == '!' || c == '?' then
      let p := runSplit (fun d => d == '!' || d == '?') (c :: cs)
      if p.1.length ≥ 2 then some ([p.1.getLastD c], p.2) else none
    else none
  | [] => none

/-- Rule `\s+ → ' '` (collapse whitespace runs). -/
def fWsCollapse : List Char → Option (List Char × List Char)
  | c :: cs =>
    if isJsWs c then
      let p := wsSplit (c :: cs)
      some ([' '], p.2)
    else none
  | [] => none

/-- Embedding of `normalizeTextForTTS` (source lines 1661-1722): every
`replace` call of the source, applied in source order. -/
def normalizeList (l0 : List Char) : List Char :=
  let l := scanRep fDoubleNewline l0
  let l := l.map (fun c => if c == '\n' then ' ' else c)
  let l := l.map normQuote
  let l := l.map normDash
  let l := (l.map (fun c => if c == '…' then ['.', '.', '.'] else [c])).flatten
  let l := scanRep (fPair '¿' '¡' '¿') l
  let l := scanRep (fPair '¡' '¿' '¡') l
  let l := scanRep (fPair '?' '!' '?') l
  let l := scanRep (fPair '!' '?' '!') l
  let l := scanRep (fBracketTrim '¿' '?') l
  let l := scanRep (fBracketTrim '¡' '!') l
  let l := scanRep (fIncompleteOpen '¿' '?') l
  let l := scanRep (fIncompleteOpen '¡' '!') l
  let l := fixTrailingColon l
  let l := scanRep fColonCap l
  let l := scanRep fWsBeforePunct l
  let l := scanRep fTermOpen l
  let l := scanRep fTermCap l
  let l := scanRep fClauseCap l
  let l := scanRep fManyDots l
  let l := scanRep fTwoDots l
  let l := scanRep fBangRun l
  let l := scanRep fWsCollapse l
  trimWs l

/-- The text normalizer, `normalizeTextForTTS`, on strings. -/
def normalizeTextForTTS (s : String) : String :=
  (normalizeList s.toList).asString

/-! ## splitSentences and its helpers (source lines 1498-1818) -/

/-- The fixed abbreviation list of `splitSentences`. -/
def abbreviationsList : List String :=
  ["Sr", "Sra", "Srta", "Dr", "Dra", "Prof", "Profa", "Lic", "Licda",
   "Ing", "Inga", "Arq", "Arqa", "Mtro", "Mtra", "etc", "vs", "p.ej",
   "i.e", "cf", "vol", "cap", "art", "núm", "pág", "ed", "op.cit",
   "Mr", "Mrs", "Ms", "Miss", "Inc", "Ltd", "Corp", "Co", "e.g"]

/-- Placeholder text `__ABBREV_${n}__`. -/
def placeholderFor (n : Nat) : List Char :=
  ("__ABBREV_" ++ toString n ++ "__").toList

/-- One pass of abbreviation protection: the global case-insensitive
replacement of `\b<abbrev>\b` by a fresh placeholder, with the
placeholder-to-original pairs recorded in match order.  `prev` is the
character before the current scan position (for the JS `\b` check; every
abbreviation begins and ends with a word character). -/
def protectOneGo (ab : List Char) :
    Nat → Option Char → Nat → List Char →
      List Char × List (List Char × List Char) × Nat
  | 0, _, ctr, l => (l, [], ctr)
  | _ + 1, _, ctr, [] => ([], [], ctr)
  | fuel + 1, prev, ctr, c :: cs =>
    let boundaryBefore := match prev with | none => true | some p => !isWordChar p
    match (if boundaryBefore && !ab.isEmpty then matchFold ab (c :: cs) else none) with
    | some (matched, rest) =>
      let boundaryAfter := match rest with | [] => true | r :: _ => !isWordChar r
      if boundaryAfter then
        let ph := placeholderFor ctr
        let r := protectOneGo ab fuel (some (matched.getLastD c)) (ctr + 1) rest
        (ph ++ r.1, (ph, matched) :: r.2.1, r.2.2)
      else
        let r := protectOneGo ab fuel (some c) ctr cs
        (c :: r.1, r.2.1, r.2.2)
    | none =>
      let r := protectOneGo ab fuel (some c) ctr cs
      (c :: r.1, r.2.1, r.2.2)

/-- Protect every abbreviation in list order, threading the placeholder
counter and accumulating the protection map in insertion order. -/
def protectAbbreviations (l : List Char) :
    List Char × List (List Char × List Char) :=
  let r := abbreviationsList.foldl
    (fun (st : List Char × List (List Char × List Char) × Nat) ab =>
      let r := protectOneGo ab.toList (st.1.length + 1) none st.2.2 st.1
      (r.1, st.2.1 ++ r.2.1, r.2.2))
    (l, [], 0)
  (r.1, r.2.1)

/-- Restore the protected abbreviations
(`sentence.replace(new RegExp(placeholder, 'g'), original)` in map order). -/
def restoreAbbrev (pairs : List (List Char × List Char)) (s : List Char) :
    List Char :=
  pairs.foldl (fun t pr => replaceAllLit pr.1 pr.2 t) s

def isSplitPunct (c : Char) : Bool := c == '.' || c == '!' || c == '?'

/-- The class `[A-ZÁÉÍÓÚÑÜ¡¿]` the splitter looks ahead for. -/
def splitCapClass (c : Char) : Bool := isUpperTTS c || c == '¡' || c == '¿'

/-- The main splitting loop of `splitSentences`: repeated matches of
`([.!?]+)\s+(?=[A-ZÁÉÍÓÚÑÜ¡¿]|$)`, cutting after the punctuation run (the
following whitespace stays with the next sentence and is trimmed away).
`acc` holds the current sentence reversed. -/
def splitScanGo : Nat → List Char → List Char → List (List Char)
  | _, acc, [] =>
    let s := trimWs acc.reverse
    if s.isEmpty then [] else [s]
  | 0, acc, rest =>
    let s := trimWs (acc.reverse ++ rest)
    if s.isEmpty then [] else [s]
  | fuel + 1, acc, c :: cs =>
    if isSplitPunct c then
      let pr := runSplit isSplitPunct (c :: cs)
      let wp := wsSplit pr.2
      let boundary := !wp.1.isEmpty &&
        (match wp.2 with | [] => true | x :: _ => splitCapClass x)
      if boundary then
        let s := trimWs (acc.reverse ++ pr.1)
        let rest := splitScanGo fuel wp.1.reverse wp.2
        if s.isEmpty then rest else s :: rest
      else
        splitScanGo fuel (pr.1.reverse ++ acc) pr.2
    else splitScanGo fuel (c :: acc) cs

def splitScan (l : List Char) : List (List Char) :=
  splitScanGo (l.length + 1) [] l

/-- The fallback splitter `split(/(?<=[.!?])\s+(?=[A-ZÁÉÍÓÚÑÜ¡¿])/)`:
a whitespace run is a boundary when the previous character is terminal
punctuation and the character after the run is in the capital class. -/
def fallbackSplitGo : Nat → Option Char → List Char → List Char → List (List Char)
  | _, _, acc, [] => [acc.reverse]
  | 0, _, acc, rest => [acc.reverse ++ rest]
  | fuel + 1, prev, acc, c :: cs =>
    if isJsWs c then
      let wp := wsSplit (c :: cs)
      let prevPunct := match prev with | some p => isSplitPunct p | none => false
      let nextCap := match wp.2 with | x :: _ => splitCapClass x | [] => false
      if prevPunct && nextCap then
        acc.reverse :: fallbackSplitGo fuel (some (wp.1.getLastD c)) [] wp.2
      else
        fallbackSplitGo fuel (some (wp.1.getLastD c)) (wp.1.reverse ++ acc) wp.2
    else fallbackSplitGo fuel (some c) (c :: acc) cs

def fallbackSplit (l : List Char) : List (List Char) :=
  fallbackSplitGo (l.length + 1) none [] l

/-- JS-boundary-delimited case-insensitive keyword occurrence, for
patterns of the form `\b(w1|w2|...)\b` with the `i` flag: the character
before a match position must be a non-word character (every keyword starts
with a word character), and the JS `\b` after the match holds for a
word-character-final keyword when the next character is not a word character,
but for a keyword ending in an accented (non-word) letter only when the next
character IS a word character. -/
def kwBoundaryMatchAt (w : List Char) (l : List Char) : Bool :=
  match matchFold w l with
  | some (_, rest) =>
    let lastC := w.getLastD ' '
    if isWordChar lastC then
      match rest with | [] => true | r :: _ => !isWordChar r
    else
      match rest with | [] => false | r :: _ => isWordChar r
  | none => false

def containsKwGo (ws : List (List Char)) :
    Option Char → List Char → Bool
  | _, [] => false
  | prev, c :: cs =>
    let boundaryBefore := match prev with | none => true | some p => !isWordChar p
    if boundaryBefore && ws.any (fun w => kwBoundaryMatchAt w (c :: cs)) then true
    else containsKwGo ws (some c) cs

def containsKw (ws : List String) (l : List Char) : Bool :=
  containsKwGo (ws.map String.toList) none l

def interrogativeKeywords : List String :=
  ["qué", "quién", "cuándo", "dónde", "cómo", "por qué", "cuál"]

def exclamatoryKeywords : List String :=
  ["wow", "increíble", "excelente", "fantástico"]

def yesNoKeywords : List String := ["yes", "no", "si", "sí"]

def exclamatoryKeywordsLong : List String :=
  ["wow", "increíble", "excelente", "fantástico", "bravo", "genial"]

/-- Rule `[\r\n\t]+ → ' '` of `enhanceSentenceForTTS`. -/
def fCtlRun : List Char → Option (List Char × List Char)
  | c :: cs =>
    if c == '\r' || c == '\n' || c == '\t' then
      let p := runSplit (fun d => d == '\r' || d == '\n' || d == '\t') (c :: cs)
      some ([' '], p.2)
    else none
  | [] => none

/-- Embedding of `enhanceSentenceForTTS` (source lines 1725-1755). -/
def enhanceSentenceForTTS (s : List Char) : List Char :=
  let e := trimWs (scanRep fWsCollapse (scanRep fCtlRun s))
  if e.isEmpty then e
  else
    let hasEnd :=
      match e.getLast? with
      | some c => c == '.' || c == '!' || c == '?' || c == '…'
      | none => false
    let startsQ := match e with | c :: _ => c == '¿' | [] => false
    let startsE := match e with | c :: _ => c == '¡' | [] => false
    let e :=
      if !hasEnd then
        if startsQ || containsKw interrogativeKeywords e then e ++ ['?']
        else if startsE || containsKw exclamatoryKeywords e then e ++ ['!']
        else e ++ ['.']
      else e
    let endQ := match e.getLast? with | some c => c == '?' | none => false
    let headQ := match e with | c :: _ => c == '¿' | [] => false
    let e :=
      if endQ && !headQ && !containsKw yesNoKeywords e then '¿' :: e else e
    let endE := match e.getLast? with | some c => c == '!' | none => false
    let headE := match e with | c :: _ => c == '¡' | [] => false
    if endE && !headE && containsKw exclamatoryKeywordsLong e then '¡' :: e else e

/-- Connective list of `splitLongSentence`, in alternation order. -/
def connectivesList : List String :=
  ["pero", "sin embargo", "además", "por tanto", "por lo tanto",
   "no obstante", "mientras", "cuando", "donde", "como", "que", "si",
   "aunque", "porque", "ya que", "dado que", "puesto que"]

/-- Match of `([,:;]\s+(?:pero|...))` at the current position: a clause
punctuation mark, at least one whitespace character, then the first
connective (in alternation order) matching case-insensitively as a prefix.
Returns the matched text and the remainder. -/
def sepMatchAt : List Char → Option (List Char × List Char)
  | c :: cs =>
    if c == ',' || c == ':' || c == ';' then
      let wp := wsSplit cs
      if wp.1.isEmpty then none
      else
        match connectivesList.findSome?
          (fun conn => matchFold conn.toList wp.2) with
        | some (m, rest) => some (c :: wp.1 ++ m, rest)
        | none => none
    else none
  | [] => none

/-- First separator match in a string: `(before, separator, after)`. -/
def findFirstSep : Nat → List Char → Option (List Char × List Char × List Char)
  | 0, _ => none
  | _ + 1, [] => none
  | fuel + 1, c :: cs =>
    match sepMatchAt (c :: cs) with
    | some (m, rest) => some ([], m, rest)
    | none =>
      match findFirstSep fuel cs with
      | some (b, m, rest) => some (c :: b, m, rest)
      | none => none

/-- `sentence.split(naturalBreaks)` with the capturing group: pieces and
captured separators alternate in the result (JS split keeps captures). -/
def splitWithSep : Nat → List Char → List (List Char)
  | 0, l => [l]
  | fuel + 1, l =>
    match findFirstSep (l.length + 1) l with
    | some (before, m, rest) => before :: m :: splitWithSep fuel rest
    | none => [l]

/-- `naturalBreaks.test(part)` for the `g`-flagged regex object: the search
starts at `lastIndex`; a hit advances `lastIndex` past the match and returns
`true`, a miss resets `lastIndex` to `0` and returns `false`. -/
def gTestGo : Nat → List Char → Option Nat
  | _, [] => none
  | idx, c :: cs =>
    match sepMatchAt (c :: cs) with
    | some (m, _) => some (idx + m.length)
    | none => gTestGo (idx + 1) cs

def gTest (li : Nat) (part : List Char) : Bool × Nat :=
  match gTestGo li (part.drop li) with
  | some e => (true, e)
  | none => (false, 0)

/-- The chunk-accumulation loop of `splitLongSentence`, threading the
stateful `lastIndex` of the shared `naturalBreaks` regex object through the
`test` calls. -/
def splitLongGo : Nat → List Char → List (List Char) → List (List Char) →
    List (List Char)
  | _, cur, chunks, [] =>
    let t := trimWs cur
    if t.isEmpty then chunks else chunks ++ [enhanceSentenceForTTS t]
  | li, cur, chunks, part :: parts =>
    let r := gTest li part
    if r.1 then splitLongGo r.2 (cur ++ part) chunks parts
    else if !cur.isEmpty && (cur ++ part).length > 200 then
      let t := trimWs cur
      let chunks' := if t.isEmpty then chunks else chunks ++ [enhanceSentenceForTTS t]
      splitLongGo r.2 part chunks' parts
    else splitLongGo r.2 (cur ++ part) chunks parts

/-- Embedding of `splitLongSentence` (source lines 1758-1788). -/
def splitLongSentence (s : List Char) : List (List Char) :=
  let parts := splitWithSep (s.length + 1) s
  let chunks := splitLongGo 0 [] [] parts
  if chunks.isEmpty then [s] else chunks

/-- `(sentence.match(/\b\w+\b/g) || []).length`: the number of maximal runs
of JS word characters. -/
def wordCount (l : List Char) : Nat :=
  (wordCountGo false l : Nat)
where
  wordCountGo : Bool → List Char → Nat
    | _, [] => 0
    | inWord, c :: cs =>
      if isWordChar c then
        (if inWord then 0 else 1) + wordCountGo true cs
      else wordCountGo false cs

/-- Embedding of `mergeShortFragments` (source lines 1791-1818): a sentence
with fewer than 4 word tokens and under 30 characters is appended to the
previous merged sentence when one exists, otherwise merged with the next
sentence (consuming it), otherwise kept.  `acc` holds the merged list
reversed. -/
def mergeShortFragmentsGo : List (List Char) → List (List Char) → List (List Char)
  | acc, [] => acc.reverse
  | acc, s :: rest =>
    if wordCount s < 4 && s.length < 30 then
      match acc with
      | a :: as => mergeShortFragmentsGo ((a ++ ' ' :: s) :: as) rest
      | [] =>
        match rest with
        | n :: rest' => mergeShortFragmentsGo [s ++ ' ' :: n] rest'
        | [] => [s]
    else mergeShortFragmentsGo (s :: acc) rest

def mergeShortFragments (sentences : List (List Char)) : List (List Char) :=
  mergeShortFragmentsGo [] sentences

/-- Embedding of `splitSentences` (source lines 1498-1603): normalize,
protect abbreviations, split on sentence boundaries (with the lookbehind
fallback), restore abbreviations, enhance, drop segments of length at most 3,
split segments longer than 400 characters, and merge short fragments. -/
def splitSentences (s : String) : List String :=
  if (trimWs s.toList).isEmpty then []
  else
    let normalized := normalizeList s.toList
    let pr := protectAbbreviations normalized
    let protectedText := pr.1
    let pairs := pr.2
    let sentences0 := splitScan protectedText
    let sentences :=
      if sentences0.isEmpty then
        (fallbackSplit protectedText).filter (fun t => !(trimWs t).isEmpty)
      else sentences0
    let processed := (sentences.map (fun sen =>
      let restored := restoreAbbrev pairs sen
      let enhanced := enhanceSentenceForTTS restored
      if enhanced.length > 3 then
        if enhanced.length > 400 then splitLongSentence enhanced else [enhanced]
      else [])).flatten
    (mergeShortFragments processed).map List.asString

/-! ## ProcessQueue (source lines 1087-1163)

The queue state is `{maxConcurrent, running, queue}`; `running` holds the ids
of admitted tasks (a JS `Set`), `queue` the pending items in FIFO order.  The
JS control thread is single-threaded, so each queue operation is an atomic
state transition. -/

structure QueueState where
  maxConcurrent : Nat
  running : List String
  queue : List String
  deriving DecidableEq, Repr

namespace ProcessQueue

/-- The admission loop of `processQueue`: while the pending list is nonempty
and the running set is below the ceiling, shift the head of the pending list
into the running set. -/
def drainAux : List String → List String → Nat → List String × List String
  | [], run, _ => ([], run)
  | p :: ps, run, mc =>
    if run.length < mc then drainAux ps (run ++ [p]) mc else (p :: ps, run)

def processQueue (s : QueueState) : QueueState :=
  let d := drainAux s.queue s.running s.maxConcurrent
  { s with queue := d.1, running := d.2 }

/-- `constructor(maxConcurrent = null)`: `maxConcurrent || Math.min(32,
CPU_CORES * 2)` (`0` and `null` both fall back to the default). -/
def init (maxConcurrent : Option Nat) (cpuCores : Nat) : QueueState :=
  { maxConcurrent :=
      match maxConcurrent with
      | some n => if n == 0 then Nat.min 32 (cpuCores * 2) else n
      | none => Nat.min 32 (cpuCores * 2),
    running := [], queue := [] }

/-- `setMaxConcurrent(max)`: clamp to `[1, 32]` via
`Math.max(1, Math.min(32, max))`, then run the admission loop. -/
def setMaxConcurrent (n : Int) (s : QueueState) : QueueState :=
  processQueue { s with maxConcurrent := (max 1 (min 32 n)).toNat }

/-- `add(task)`: push the queue item, then run the admission loop. -/
def add (id : String) (s : QueueState) : QueueState :=
  processQueue { s with queue := s.queue ++ [id] }

/-- Completion bookkeeping of `executeTask`: the running slot is freed and
the admission loop re-runs (the `setImmediate(() => this.processQueue())` in
the `finally` block). -/
def finish (id : String) (s : QueueState) : QueueState :=
  processQueue { s with running := s.running.erase id }

def getStatus (s : QueueState) : Nat × Nat × Nat :=
  (s.maxConcurrent, s.running.length, s.queue.length)

end ProcessQueue

/-- Events observable on the shared queue instance. -/
inductive QEvent where
  | add (id : String)
  | finish (id : String)
  | setMax (n : Int)
  deriving DecidableEq, Repr

def QEvent.isSetMax : QEvent → Bool
  | .setMax _ => true
  | _ => false

def stepQ (s : QueueState) : QEvent → QueueState
  | .add id => ProcessQueue.add id s
  | .finish id => ProcessQueue.finish id s
  | .setMax n => ProcessQueue.setMaxConcurrent n s

def runQ (s : QueueState) (evs : List QEvent) : QueueState :=
  evs.foldl stepQ s

/-! ## Task futures (executeTask, source lines 1129-1150) -/

/-- The error message thrown for cancellation, compared literally by
`executeTask`. -/
def conversionCancelledMsg : String := "Conversion was cancelled"

/-- Outcome of awaiting `queueItem.task()`. -/
inductive TaskOutcome (α : Type) where
  | ok (v : α)
  | err (msg : String)
  deriving DecidableEq, Repr

/-- Settlement of the future returned by `ProcessQueue.add`: `resolved`
corresponds to a fulfilled promise (with `none` for the `null` cancellation
sentinel), `rejected` to a rejected promise. -/
inductive Resolution (α : Type) where
  | resolved (v : Option α)
  | rejected (msg : String)
  deriving DecidableEq, Repr

/-- Embedding of `executeTask`: on success the slot is freed and the future
resolves with the result; on failure the slot is freed and the future
resolves with `null` when the error message is the cancellation message,
otherwise it rejects.  Either way the admission loop re-runs. -/
def ProcessQueue.executeTask {α : Type} (s : QueueState) (id : String)
    (outcome : TaskOutcome α) : QueueState × Resolution α :=
  match outcome with
  | .ok v =>
    (ProcessQueue.processQueue { s with running := s.running.erase id },
     .resolved (some v))
  | .err m =>
    (ProcessQueue.processQueue { s with running := s.running.erase id },
     if m = conversionCancelledMsg then .resolved none else .rejected m)

/-! ## Conversion sessions (source lines 2123-2506) -/

/-- A spawned external synthesis process handle; `killed` mirrors
`ChildProcess.killed`. -/
structure ProcHandle where
  killed : Bool
  deriving DecidableEq, Repr

/-- The result object stored on a completed conversion. -/
structure ConvResult where
  audio : String
  model : String
  sentenceCount : Nat
  deriving DecidableEq, Repr

structure ConvProgress where
  completed : Nat
  total : Nat
  percentage : Nat
  deriving DecidableEq, Repr

/-- One entry of `activeConversions`.  Fields that are `undefined` until
first assignment in JS (`completed`, `failed`, `result`, `error`, ...) are
modelled as `false` / `none`, matching the `|| false` / `|| null` reads. -/
structure Conversion where
  id : String
  cancelled : Bool
  completed : Bool
  failed : Bool
  processes : List ProcHandle
  startTime : Nat
  totalSentences : Nat
  progress : Option ConvProgress
  result : Option ConvResult
  error : Option String
  lastUpdate : Option Nat
  cancelledAt : Option Nat
  completedAt : Option Nat
  deriving DecidableEq, Repr

/-- Session registration in `/convert` (source lines 2182-2188). -/
def newConversion (id : String) (totalSentences now : Nat) : Conversion :=
  { id := id, cancelled := false, completed := false, failed := false,
    processes := [], startTime := now, totalSentences := totalSentences,
    progress := none, result := none, error := none, lastUpdate := none,
    cancelledAt := none, completedAt := none }

/-- The per-sentence result object `{ index, audioFile, sentence }`. -/
structure SentenceResult where
  index : Nat
  audioFile : String
  sentence : String
  deriving DecidableEq, Repr

/-- `successfulResults`: keep the fulfilled, non-null settlements
(`result.status === 'fulfilled' && result.value !== null`). -/
def collectSuccessful (results : List (Resolution SentenceResult)) :
    List SentenceResult :=
  results.filterMap (fun r =>
    match r with
    | .resolved (some v) => some v
    | _ => none)

/-- `successfulResults.sort((a, b) => a.index - b.index)`: a stable ascending
sort by `index` (insertion sort; V8's stable sort agrees on the ordering). -/
def insertByIndex (x : SentenceResult) : List SentenceResult → List SentenceResult
  | [] => [x]
  | y :: ys => if x.index < y.index then x :: y :: ys else y :: insertByIndex x ys

def sortByIndex : List SentenceResult → List SentenceResult
  | [] => []
  | x :: xs => insertByIndex x (sortByIndex xs)

/-- The tail of `generateAudioParallel` after `Promise.allSettled` (source
lines 1974-2001): cancellation check, the all-failed check, then the sort by
original index and projection to audio file paths.  `cancelled` is the
session's cancellation flag at the check. -/
def generateAudioParallelOutcome (results : List (Resolution SentenceResult))
    (cancelled : Bool) : Except String (List String) :=
  if cancelled then .error conversionCancelledMsg
  else if (collectSuccessful results).length == 0 then
    .error "No sentences were processed successfully"
  else .ok ((sortByIndex (collectSuccessful results)).map (fun r => r.audioFile))

/-- The `catch` block of `processConversionInBackground` (source lines
2400-2416): a cancellation message marks the session cancelled, any other
message marks it failed with that error. -/
def backgroundCatch (conv : Conversion) (msg : String) (now : Nat) : Conversion :=
  if msg = conversionCancelledMsg then
    { conv with cancelled := true, cancelledAt := some now }
  else { conv with error := some msg, failed := true }

/-- Embedding of `processConversionInBackground` (source lines 2316-2417)
for a registered session.  `results` are the settlements of the per-sentence
queue tasks; `asm` abstracts the external assembly collaborators
(`concatenateAudio` for multiple files plus `convertToMp3` and the base64
read), returning the base64 audio payload or the failure message of a
non-zero exit. -/
def processConversionInBackground (conv : Conversion)
    (results : List (Resolution SentenceResult))
    (asm : List String → Except String String)
    (modelName : String) (now : Nat) : Conversion :=
  if conv.cancelled then conv
  else
    match generateAudioParallelOutcome results conv.cancelled with
    | .error msg => backgroundCatch conv msg now
    | .ok audioFiles =>
      if conv.cancelled then conv
      else if audioFiles.length == 0 then
        backgroundCatch conv "Failed to generate any audio" now
      else
        match asm audioFiles with
        | .error msg => backgroundCatch conv msg now
        | .ok audioBase64 =>
          if conv.cancelled then conv
          else
            { conv with
              completed := true,
              result := some
                { audio := "data:audio/mpeg;base64," ++ audioBase64,
                  model := modelName,
                  sentenceCount := conv.totalSentences },
              completedAt := some now }

/-- Response and state change of `POST /cancel-conversion/:id` for a session
found in the registry (source lines 2449-2492): `signals` counts the
`SIGKILL`s sent (one per not-yet-killed handle). -/
structure CancelOutcome where
  success : Bool
  conv : Conversion
  signals : Nat
  deriving DecidableEq, Repr

def cancelConversion (conv : Conversion) (now : Nat) : CancelOutcome :=
  if conv.completed then { success := false, conv := conv, signals := 0 }
  else
    { success := true,
      conv := { conv with
                cancelled := true,
                cancelledAt := some now,
                processes := [] },
      signals := (conv.processes.filter (fun p => !p.killed)).length }

/-- The snapshot returned by `GET /conversion-status/:id` for a found
session (source lines 2432-2445). -/
structure SessionSnapshot where
  id : String
  cancelled : Bool
  completed : Bool
  failed : Bool
  progress : ConvProgress
  result : Option ConvResult
  error : Option String
  startTime : Nat
  lastUpdate : Nat
  deriving DecidableEq, Repr

def conversionStatus (conv : Conversion) : SessionSnapshot :=
  { id := conv.id, cancelled := conv.cancelled, completed := conv.completed,
    failed := conv.failed,
    progress := conv.progress.getD
      { completed := 0, total := conv.totalSentences, percentage := 0 },
    result := conv.result, error := conv.error,
    startTime := conv.startTime,
    lastUpdate := conv.lastUpdate.getD conv.startTime }

/-- Status route including the registry lookup: `none` is the 404 path. -/
def conversionStatusRoute (convs : List (String × Conversion)) (id : String) :
    Option SessionSnapshot :=
  match convs.find? (fun e => e.1 == id) with
  | none => none
  | some e => some (conversionStatus e.2)

/-- The retention window of the cleanup sweep (5 minutes in ms). -/
def cleanupMaxAge : Nat := 5 * 60 * 1000

/-- The periodic cleanup sweep (source lines 2495-2506): a session is removed
when its age exceeds the retention window AND it is terminal
(completed, failed, or cancelled). -/
def cleanupSweep (now : Nat) (convs : List (String × Conversion)) :
    List (String × Conversion) :=
  convs.filter (fun e =>
    !(decide (now - e.2.startTime > cleanupMaxAge) &&
      (e.2.completed || e.2.failed || e.2.cancelled)))

/-! ## Shared concrete objects for witnesses and counterexamples -/

/-- An assembly collaborator that always succeeds, concatenating the file
names into the payload. -/
def asmConcat : List String → Except String String :=
  fun fs => .ok (String.intercalate "" fs)

/-- Settlements with one real failure and one success. -/
def mixedSettled : List (Resolution SentenceResult) :=
  [.rejected "Piper failed with code 1: boom",
   .resolved (some { index := 1, audioFile := "f1.wav", sentence := "s1" })]

/-- The session after background processing of `mixedSettled`. -/
def mixedFinal : Conversion :=
  processConversionInBackground (newConversion "c1" 2 0) mixedSettled
    asmConcat "voice" 5

/-- C8 -- the spec's segmentation example: the pipeline on
"Hola Dr. Gómez. ¿Cómo estás" returns the two sentences with the missing
closing question mark added. -/
theorem claim8_segmentation_example :
    splitSentences "Hola Dr. Gómez. ¿Cómo estás" =
      ["Hola Dr. Gómez.", "¿Cómo estás?"] := by decide

/-- C4 counterexample -- the normalizer is not idempotent: on
"¿Qué: Hola?" one application yields "¿Qué. Hola?" and a second application
turns it into "¿Qué? Hola?". -/
theorem claim4_counterexample :
    normalizeTextForTTS (normalizeTextForTTS "¿Qué: Hola?") ≠
      normalizeTextForTTS "¿Qué: Hola?" := by decide

/-- C4 amended -- the normalizer is idempotent on the spec's example
sentence (though not on all inputs). -/
theorem claim4_amended :
    normalizeTextForTTS (normalizeTextForTTS "Hola Dr. Gómez. ¿Cómo estás") =
      normalizeTextForTTS "Hola Dr. Gómez. ¿Cómo estás" := by decide

/-- C2 counterexample -- lowering the ceiling below the running count does
not preempt: after two admissions, `setMaxConcurrent(1)` leaves two tasks
running above the new ceiling. -/
theorem claim2_counterexample :
    (runQ (ProcessQueue.init (some 2) 4)
        [QEvent.add "a", QEvent.add "b", QEvent.add "c", QEvent.setMax 1]).maxConcurrent <
      (runQ (ProcessQueue.init (some 2) 4)
        [QEvent.add "a", QEvent.add "b", QEvent.add "c", QEvent.setMax 1]).running.length := by
  decide

/-- C1 counterexample -- one sentence task fails with a non-cancellation
error while a sibling succeeds: the session does not end `Failed`; it
completes and the sibling's output is assembled into the result. -/
theorem claim1_counterexample :
    mixedFinal.failed = false ∧ mixedFinal.completed = true ∧
      mixedFinal.result =
        some { audio := "data:audio/mpeg;base64,f1.wav", model := "voice",
               sentenceCount := 2 } := by decide

/-! ## Queue lemmas -/

theorem drainAux_running_le (q : List String) (run : List String) (mc : Nat)
    (h : run.length ≤ mc) :
    (ProcessQueue.drainAux q run mc).2.length ≤ mc := by
  induction q generalizing run with
  | nil => simpa [ProcessQueue.drainAux] using h
  | cons p ps ih =>
    simp only [ProcessQueue.drainAux]
    split
    · exact ih (run ++ [p]) (by simpa using ‹run.length < mc›)
    · simpa using h

theorem drainAux_mem (q : List String) (run : List String) (mc : Nat)
    (id : String) (h : id ∈ run) :
    id ∈ (ProcessQueue.drainAux q run mc).2 := by
  induction q generalizing run with
  | nil => simpa [ProcessQueue.drainAux] using h
  | cons p ps ih =>
    simp only [ProcessQueue.drainAux]
    split
    · exact ih (run ++ [p]) (List.mem_append_left _ h)
    · simpa using h

theorem drainAux_post (q : List String) (run : List String) (mc : Nat) :
    (ProcessQueue.drainAux q run mc).1 = [] ∨
      mc ≤ (ProcessQueue.drainAux q run mc).2.length := by
  induction q generalizing run with
  | nil => left; rfl
  | cons p ps ih =>
    simp only [ProcessQueue.drainAux]
    split
    · exact ih (run ++ [p])
    · right
      simp only [Prod.snd]
      omega

theorem processQueue_inv (s : QueueState)
    (h : s.running.length ≤ s.maxConcurrent) :
    (ProcessQueue.processQueue s).running.length ≤
      (ProcessQueue.processQueue s).maxConcurrent := by
  simpa [ProcessQueue.processQueue] using
    drainAux_running_le s.queue s.running s.maxConcurrent h

/-- C2 amended -- at every state reachable from a within-bound state by task
submissions and completions (no ceiling changes), the running count stays at
or below `maxConcurrent`. -/
theorem claim2_amended (s : QueueState) (evs : List QEvent)
    (hnoset : ∀ e ∈ evs, e.isSetMax = false)
    (hinv : s.running.length ≤ s.maxConcurrent) :
    (runQ s evs).running.length ≤ (runQ s evs).maxConcurrent := by
  induction evs generalizing s with
  | nil => simpa [runQ] using hinv
  | cons e es ih =>
    have hstep : (stepQ s e).running.length ≤ (stepQ s e).maxConcurrent := by
      cases e with
      | add id =>
        exact processQueue_inv _ (by simpa using hinv)
      | finish id =>
        refine processQueue_inv _ ?_
        calc (s.running.erase id).length ≤ s.running.length :=
              (s.running.erase_sublist id).length_le
          _ ≤ s.maxConcurrent := hinv
      | setMax n =>
        have := hnoset (.setMax n) (by simp)
        simp [QEvent.isSetMax] at this
    have : runQ s (e :: es) = runQ (stepQ s e) es := by simp [runQ]
    rw [this]
    exact ih (stepQ s e) (fun x hx => hnoset x (by simp [hx])) hstep

/-- C2 witness for the amended claim: three tasks submitted against a
ceiling of 2 never push the running count above the ceiling. -/
theorem claim2_witness :
    (∀ e ∈ [QEvent.add "a", QEvent.add "b", QEvent.add "c"],
        e.isSetMax = false) ∧
    (ProcessQueue.init (some 2) 4).running.length ≤
      (ProcessQueue.init (some 2) 4).maxConcurrent ∧
    (runQ (ProcessQueue.init (some 2) 4)
        [QEvent.add "a", QEvent.add "b", QEvent.add "c"]).running.length ≤
      (runQ (ProcessQueue.init (some 2) 4)
        [QEvent.add "a", QEvent.add "b", QEvent.add "c"]).maxConcurrent :=
  ⟨by decide, by decide,
   claim2_amended (ProcessQueue.init (some 2) 4)
     [QEvent.add "a", QEvent.add "b", QEvent.add "c"] (by decide) (by decide)⟩

/-- C7 -- `setMaxConcurrent(n)` clamps the ceiling to `[1, 32]`, keeps every
already-running task running (no preemption), and leaves no pending task
unadmitted while capacity remains (the admission loop runs immediately). -/
theorem claim7_setMaxConcurrent (n : Int) (s : QueueState) :
    (ProcessQueue.setMaxConcurrent n s).maxConcurrent = (max 1 (min 32 n)).toNat
    ∧ 1 ≤ (ProcessQueue.setMaxConcurrent n s).maxConcurrent
    ∧ (ProcessQueue.setMaxConcurrent n s).maxConcurrent ≤ 32
    ∧ (∀ id, id ∈ s.running → id ∈ (ProcessQueue.setMaxConcurrent n s).running)
    ∧ ((ProcessQueue.setMaxConcurrent n s).queue = [] ∨
        (ProcessQueue.setMaxConcurrent n s).maxConcurrent ≤
          (ProcessQueue.setMaxConcurrent n s).running.length) := by
  refine ⟨?_, ?_, ?_, ?_, ?_⟩
  · simp [ProcessQueue.setMaxConcurrent, ProcessQueue.processQueue]
  · simp only [ProcessQueue.setMaxConcurrent, ProcessQueue.processQueue]
    omega
  · simp only [ProcessQueue.setMaxConcurrent, ProcessQueue.processQueue]
    omega
  · intro id h
    simpa [ProcessQueue.setMaxConcurrent, ProcessQueue.processQueue] using
      drainAux_mem s.queue s.running _ id h
  · simpa [ProcessQueue.setMaxConcurrent, ProcessQueue.processQueue] using
      drainAux_post s.queue s.running ((max 1 (min 32 n)).toNat)

/-- C7 witness: raising the ceiling to 40 on a queue with one running and one
pending task clamps to 32, keeps the running task, and admits the pending
one. -/
theorem claim7_witness :
    "r" ∈ (QueueState.mk 2 ["r"] ["x"]).running ∧
    (ProcessQueue.setMaxConcurrent 40 (QueueState.mk 2 ["r"] ["x"])).maxConcurrent =
      (max 1 (min 32 (40 : Int))).toNat ∧
    "r" ∈ (ProcessQueue.setMaxConcurrent 40 (QueueState.mk 2 ["r"] ["x"])).running :=
  ⟨by decide,
   (claim7_setMaxConcurrent 40 (QueueState.mk 2 ["r"] ["x"])).1,
   (claim7_setMaxConcurrent 40 (QueueState.mk 2 ["r"] ["x"])).2.2.2.1 "r" (by decide)⟩

/-- C3 -- a task whose execution raises the cancellation error has its
future resolved with the `null` sentinel, never rejected; only
non-cancellation errors reject the future. -/
theorem claim3_cancellationSentinel {α : Type} (s : QueueState) (id : String)
    (o : TaskOutcome α) :
    (o = .err conversionCancelledMsg →
      (ProcessQueue.executeTask s id o).2 = .resolved none)
    ∧ (∀ m, (ProcessQueue.executeTask s id o).2 = .rejected m →
        o = .err m ∧ m ≠ conversionCancelledMsg) := by
  constructor
  · intro h
    subst h
    simp [ProcessQueue.executeTask]
  · intro m hm
    cases o with
    | ok v => simp [ProcessQueue.executeTask] at hm
    | err m' =>
      by_cases hc : m' = conversionCancelledMsg
      · simp [ProcessQueue.executeTask, hc] at hm
      · simp [ProcessQueue.executeTask, hc] at hm
        subst hm
        exact ⟨rfl, hc⟩

/-- C3 witness: a concrete cancelled task resolves with the sentinel. -/
theorem claim3_witness :
    ((TaskOutcome.err conversionCancelledMsg : TaskOutcome String) =
      TaskOutcome.err conversionCancelledMsg) ∧
    (ProcessQueue.executeTask (QueueState.mk 1 ["t"] []) "t"
        (TaskOutcome.err conversionCancelledMsg : TaskOutcome String)).2 =
      Resolution.resolved none :=
  ⟨rfl,
   (claim3_cancellationSentinel (QueueState.mk 1 ["t"] []) "t"
      (TaskOutcome.err conversionCancelledMsg : TaskOutcome String)).1 rfl⟩

/-! ## Sorting lemmas for the ordered-assembly claim -/

theorem insertByIndex_perm (x : SentenceResult) (l : List SentenceResult) :
    List.Perm (insertByIndex x l) (x :: l) := by
  induction l with
  | nil => rfl
  | cons y ys ih =>
    simp only [insertByIndex]
    split
    · rfl
    · exact (ih.cons y).trans (List.Perm.swap x y ys)

theorem sortByIndex_perm (l : List SentenceResult) :
    List.Perm (sortByIndex l) l := by
  induction l with
  | nil => rfl
  | cons x xs ih =>
    exact (insertByIndex_perm x (sortByIndex xs)).trans (ih.cons x)

theorem insertByIndex_pairwise_le (x : SentenceResult)
    (l : List SentenceResult)
    (h : l.Pairwise (fun a b => a.index ≤ b.index)) :
    (insertByIndex x l).Pairwise (fun a b => a.index ≤ b.index) := by
  induction l with
  | nil => simp [insertByIndex]
  | cons y ys ih =>
    rcases List.pairwise_cons.mp h with ⟨hy, hys⟩
    simp only [insertByIndex]
    split
    · refine List.pairwise_cons.mpr ⟨?_, h⟩
      intro z hz
      rcases List.mem_cons.mp hz with rfl | hz'
      · omega
      · have := hy z hz'
        omega
    · refine List.pairwise_cons.mpr ⟨?_, ih hys⟩
      intro z hz
      rcases List.mem_cons.mp ((insertByIndex_perm x ys).mem_iff.mp hz) with rfl | hz'
      · omega
      · exact hy z hz'

theorem sortByIndex_pairwise_le (l : List SentenceResult) :
    (sortByIndex l).Pairwise (fun a b => a.index ≤ b.index) := by
  induction l with
  | nil => simp [sortByIndex]
  | cons x xs ih => exact insertByIndex_pairwise_le x (sortByIndex xs) ih

/-- C5 -- the audio-file list handed to the assembler lists the units in
strictly increasing original index order, whatever the completion order of
the concurrent tasks produced as settlement order. -/
theorem claim5_orderedAssembly (results : List (Resolution SentenceResult))
    (files : List String)
    (hok : generateAudioParallelOutcome results false = .ok files)
    (hnodup : ((collectSuccessful results).map (fun r => r.index)).Nodup) :
    files = (sortByIndex (collectSuccessful results)).map (fun r => r.audioFile)
    ∧ List.Perm (sortByIndex (collectSuccessful results)) (collectSuccessful results)
    ∧ ((sortByIndex (collectSuccessful results)).map
        (fun r => r.index)).Pairwise (· < ·) := by
  refine ⟨?_, sortByIndex_perm _, ?_⟩
  · simp only [generateAudioParallelOutcome, if_neg (Bool.false_ne_true ∘ id)] at hok
    split at hok
    · exact absurd hok (by simp)
    · exact (Except.ok.injEq _ _).mp hok.symm |>.symm ▸ rfl
  · have hsorted := sortByIndex_pairwise_le (collectSuccessful results)
    have hnd : ((sortByIndex (collectSuccessful results)).map
        (fun r => r.index)).Nodup :=
      (((sortByIndex_perm (collectSuccessful results)).map
        (fun r => r.index)).nodup_iff).mpr hnodup
    have hne := List.pairwise_map.mp hnd
    have := (List.pairwise_map.mpr hsorted :
      ((sortByIndex (collectSuccessful results)).map
        (fun r => r.index)).Pairwise (· ≤ ·))
    exact (this.and hnd).imp (fun h => lt_of_le_of_ne h.1 h.2)

deriving instance DecidableEq for Except

/-- C5 witness: two settlements arriving in reverse index order are handed
to the assembler as ["a", "b"], i.e. in index order 0, 1. -/
theorem claim5_witness :
    generateAudioParallelOutcome
      [Resolution.resolved (some (SentenceResult.mk 1 "b" "s1")),
       Resolution.resolved (some (SentenceResult.mk 0 "a" "s0"))] false =
      Except.ok ["a", "b"] ∧
    ((collectSuccessful
      [Resolution.resolved (some (SentenceResult.mk 1 "b" "s1")),
       Resolution.resolved (some (SentenceResult.mk 0 "a" "s0"))]).map
        (fun r => r.index)).Nodup ∧
    ["a", "b"] =
      (sortByIndex (collectSuccessful
        [Resolution.resolved (some (SentenceResult.mk 1 "b" "s1")),
         Resolution.resolved (some (SentenceResult.mk 0 "a" "s0"))])).map
        (fun r => r.audioFile) :=
  ⟨by decide, by decide,
   (claim5_orderedAssembly
      [Resolution.resolved (some (SentenceResult.mk 1 "b" "s1")),
       Resolution.resolved (some (SentenceResult.mk 0 "a" "s0"))]
      ["a", "b"] (by decide) (by decide)).1⟩

theorem failedAudioMsg_ne :
    ("Failed to generate any audio" : String) ≠ conversionCancelledMsg := by
  decide

/-- C1 amended -- the session fails only when no task succeeded, and then
with the generic message; when at least one sibling succeeded and assembly
succeeds, the session completes with the successful siblings' outputs
assembled (non-cancellation failures of other tasks are silently dropped). -/
theorem claim1_amended (conv : Conversion)
    (results : List (Resolution SentenceResult))
    (asm : List String → Except String String) (modelName : String) (now : Nat)
    (hc : conv.cancelled = false) :
    (collectSuccessful results = [] →
      (processConversionInBackground conv results asm modelName now).failed = true ∧
      (processConversionInBackground conv results asm modelName now).error =
        some "No sentences were processed successfully")
    ∧ (∀ b, collectSuccessful results ≠ [] →
        asm ((sortByIndex (collectSuccessful results)).map
          (fun r => r.audioFile)) = .ok b →
        (processConversionInBackground conv results asm modelName now).completed = true ∧
        (processConversionInBackground conv results asm modelName now).result =
          some { audio := "data:audio/mpeg;base64," ++ b, model := modelName,
                 sentenceCount := conv.totalSentences }) := by
  constructor
  · intro hempty
    have houtcome : generateAudioParallelOutcome results false =
        .error "No sentences were processed successfully" := by
      simp [generateAudioParallelOutcome, hempty]
    simp only [processConversionInBackground, hc, houtcome, backgroundCatch,
      Bool.false_eq_true, if_false]
    rw [if_neg (show ("No sentences were processed successfully" : String) ≠
      conversionCancelledMsg by decide)]
    exact ⟨rfl, rfl⟩
  · intro b hne hasm
    have hlen : (collectSuccessful results).length ≠ 0 := by
      simpa [List.length_eq_zero] using hne
    have houtcome : generateAudioParallelOutcome results false =
        .ok ((sortByIndex (collectSuccessful results)).map
          (fun r => r.audioFile)) := by
      simp [generateAudioParallelOutcome, hlen]
    have hsne : sortByIndex (collectSuccessful results) ≠ [] := by
      intro h
      apply hne
      have hl := (sortByIndex_perm (collectSuccessful results)).length_eq
      rw [h] at hl
      simpa [List.length_eq_zero] using hl.symm
    simp [processConversionInBackground, hc, houtcome, hasm, hsne]

/-- C1 witness for the amended claim: a single successful unit completes the
session with its audio assembled. -/
theorem claim1_witness :
    (newConversion "c2" 1 0).cancelled = false ∧
    collectSuccessful
      [Resolution.resolved (some (SentenceResult.mk 0 "a.wav" "s"))] ≠ [] ∧
    asmConcat ((sortByIndex (collectSuccessful
      [Resolution.resolved (some (SentenceResult.mk 0 "a.wav" "s"))])).map
        (fun r => r.audioFile)) = .ok "a.wav" ∧
    (processConversionInBackground (newConversion "c2" 1 0)
      [Resolution.resolved (some (SentenceResult.mk 0 "a.wav" "s"))]
      asmConcat "m" 3).completed = true :=
  ⟨rfl, by decide, by decide,
   ((claim1_amended (newConversion "c2" 1 0)
      [Resolution.resolved (some (SentenceResult.mk 0 "a.wav" "s"))]
      asmConcat "m" 3 rfl).2 "a.wav" (by decide) (by decide)).1⟩

/-- A session that failed (all units rejected with a real error). -/
def failedConv : Conversion :=
  processConversionInBackground (newConversion "c3" 1 0)
    [.rejected "Piper failed with code 1: x"] asmConcat "voice" 7

/-- C6 counterexample -- cancelling a session already in the Failed terminal
state is accepted (`success = true`) and mutates the session, contrary to
the claim that any terminal session reports non-acceptance unchanged. -/
theorem claim6_counterexample :
    failedConv.failed = true ∧ failedConv.cancelled = false ∧
    (cancelConversion failedConv 9).success = true ∧
    (cancelConversion failedConv 9).conv.cancelled = true := by decide

/-- C6 amended -- only the Completed state refuses cancellation (no-op,
`success = false`, zero signals); a Failed or already-Cancelled session
accepts it again, sets the cancelled flag, clears the handle list, but
leaves result and error untouched. -/
theorem claim6_amended (conv : Conversion) (now : Nat) :
    (conv.completed = true →
      cancelConversion conv now =
        { success := false, conv := conv, signals := 0 })
    ∧ (conv.completed = false →
        (cancelConversion conv now).success = true ∧
        (cancelConversion conv now).conv.cancelled = true ∧
        (cancelConversion conv now).conv.processes = [] ∧
        (cancelConversion conv now).conv.result = conv.result ∧
        (cancelConversion conv now).conv.error = conv.error) := by
  constructor
  · intro h
    simp [cancelConversion, h]
  · intro h
    simp [cancelConversion, h]

/-- A session that completed successfully. -/
def completedConv : Conversion :=
  processConversionInBackground (newConversion "c4" 1 0)
    [.resolved (some (SentenceResult.mk 0 "a.wav" "s"))] asmConcat "m" 3

/-- C6 witness: cancel on a Completed session is the refused no-op. -/
theorem claim6_witness :
    completedConv.completed = true ∧
    cancelConversion completedConv 9 =
      { success := false, conv := completedConv, signals := 0 } :=
  ⟨by decide, (claim6_amended completedConv 9).1 (by decide)⟩

/-- A session cancelled while still running. -/
def cancelledConv : Conversion :=
  (cancelConversion (newConversion "c5" 3 0) 4).conv

/-- C9 counterexample -- a Cancelled session is terminal, yet its status
snapshot populates neither the result nor the error. -/
theorem claim9_counterexample :
    cancelledConv.cancelled = true ∧
    (conversionStatus cancelledConv).result = none ∧
    (conversionStatus cancelledConv).error = none := by decide

/-- C9 amended -- a terminal snapshot never populates both result and error:
a Completed session exposes exactly the result, a Failed session exactly the
error, and a session that was cancelled without completing or failing
exposes neither. -/
theorem claim9_amended (conv : Conversion)
    (results : List (Resolution SentenceResult))
    (asm : List String → Except String String) (modelName : String) (now : Nat)
    (h0 : conv.completed = false) (h1 : conv.failed = false)
    (h2 : conv.result = none) (h3 : conv.error = none)
    (c : Conversion)
    (hc : c = processConversionInBackground conv results asm modelName now) :
    ¬((conversionStatus c).result.isSome = true ∧
      (conversionStatus c).error.isSome = true)
    ∧ (c.completed = true →
        (conversionStatus c).result.isSome = true ∧
        (conversionStatus c).error = none)
    ∧ (c.failed = true →
        (conversionStatus c).error.isSome = true ∧
        (conversionStatus c).result = none)
    ∧ (c.cancelled = true → c.completed = false → c.failed = false →
        (conversionStatus c).result = none ∧
        (conversionStatus c).error = none) := by
  subst hc
  by_cases hcc : conv.cancelled = true
  · simp [processConversionInBackground, hcc, conversionStatus, h0, h1, h2, h3]
  · replace hcc : conv.cancelled = false := by simpa using hcc
    rcases hE : generateAudioParallelOutcome results false with msg | files
    · by_cases hm : msg = conversionCancelledMsg <;>
        simp [processConversionInBackground, hcc, hE, backgroundCatch, hm,
          conversionStatus, h0, h1, h2, h3]
    · by_cases hfl : files.length == 0
      · simp [processConversionInBackground, hcc, hE, hfl, backgroundCatch,
          conversionStatus, failedAudioMsg_ne, h0, h1, h2, h3]
      · rcases hA : asm files with msg | b
        · by_cases hm : msg = conversionCancelledMsg <;>
            simp [processConversionInBackground, hcc, hE, hfl, hA,
              backgroundCatch, hm, conversionStatus, h0, h1, h2, h3]
        · simp [processConversionInBackground, hcc, hE, hfl, hA,
            conversionStatus, h0, h1, h2, h3]

/-- C9 witness for the amended claim: a completed session exposes exactly
the result. -/
theorem claim9_witness :
    completedConv.completed = true ∧
    (conversionStatus completedConv).result.isSome = true ∧
    (conversionStatus completedConv).error = none :=
  ⟨by decide,
   (claim9_amended (newConversion "c4" 1 0)
      [.resolved (some (SentenceResult.mk 0 "a.wav" "s"))] asmConcat "m" 3
      rfl rfl rfl rfl completedConv rfl).2.1 (by decide)⟩

/-- C10 -- the cleanup sweep never removes a session that is not terminal:
a Running session stays in the registry at any sweep time, and polling its
id still succeeds. -/
theorem claim10_runningNeverSwept (now : Nat)
    (convs : List (String × Conversion)) (id : String) (c : Conversion)
    (hmem : (id, c) ∈ convs)
    (h0 : c.completed = false) (h1 : c.failed = false)
    (h2 : c.cancelled = false) :
    (id, c) ∈ cleanupSweep now convs ∧
    (conversionStatusRoute (cleanupSweep now convs) id).isSome = true := by
  have hkeep : (id, c) ∈ cleanupSweep now convs := by
    refine List.mem_filter.mpr ⟨hmem, ?_⟩
    simp [h0, h1, h2]
  refine ⟨hkeep, ?_⟩
  have hfind : ((cleanupSweep now convs).find? (fun e => e.1 == id)).isSome := by
    refine List.find?_isSome.mpr ⟨(id, c), hkeep, ?_⟩
    simp
  rcases hf : (cleanupSweep now convs).find? (fun e => e.1 == id) with _ | e
  · rw [hf] at hfind
    simp at hfind
  · simp [conversionStatusRoute, hf]

/-- C10 witness: a Running session far older than the retention window
survives a sweep and can still be polled. -/
theorem claim10_witness :
    ("s1", newConversion "s1" 2 0) ∈ [("s1", newConversion "s1" 2 0)] ∧
    (newConversion "s1" 2 0).completed = false ∧
    (conversionStatusRoute
      (cleanupSweep 1000000000 [("s1", newConversion "s1" 2 0)])
      "s1").isSome = true :=
  ⟨by decide, rfl,
   (claim10_runningNeverSwept 1000000000 [("s1", newConversion "s1" 2 0)]
      "s1" (newConversion "s1" 2 0) (by decide) rfl rfl rfl).2⟩
